import Mathlib

/-!
Shallow embedding of the kiro_usage consolidation-and-identity-resolution
pipeline, translated from the Python sources:

* `consolidate_kiro_reports_fixed.py` — filename date extraction, S3 catalog
  listing, per-file download/parse, and report consolidation
  (concat, dedup keep-last on (UserId, Date), sort by (ReportDate, UserId)).
* `kiro_tracker_with_iam.py` — multi-region aggregation
  (`consolidate_region_data`, `SUPPORTED_REGIONS`).
* `iam_identity_center_mapper.py` — the identity cache
  (`get_user_info`, `bulk_get_users`, `search_user_by_username`,
  `list_all_users`).

External effects (S3 listing/fetch, the identity-store API, the wall clock)
are passed in as explicit oracle arguments; fallible Python code is modelled
with `Except`/`Option`.  Python `\d` is modelled as ASCII digits and
timestamps as integer epoch seconds; neither choice affects the properties
proved below.
-/

/-- A calendar date, as produced by `datetime.strptime(s, "%Y%m%d")`. -/
structure Date where
  year : Nat
  month : Nat
  day : Nat
deriving DecidableEq, Repr

/-- Gregorian leap-year rule used by `datetime`. -/
def isLeapYear (y : Nat) : Bool :=
  y % 4 == 0 && (y % 100 != 0 || y % 400 == 0)

/-- Number of days in a month, as validated by `datetime`. -/
def daysInMonth (y m : Nat) : Nat :=
  if m == 2 then (if isLeapYear y then 29 else 28)
  else if m == 4 || m == 6 || m == 9 || m == 11 then 30
  else 31

/-- The triples `datetime(year, month, day)` accepts
(`MINYEAR = 1`, `MAXYEAR = 9999`). -/
def validDate (y m d : Nat) : Bool :=
  1 ≤ y && y ≤ 9999 && 1 ≤ m && m ≤ 12 && 1 ≤ d && d ≤ daysInMonth y m

/-- Numeric value of a decimal digit character. -/
def digitVal (c : Char) : Nat := c.toNat - '0'.toNat

/-- Natural number denoted by a list of decimal digit characters. -/
def natOfDigits (cs : List Char) : Nat :=
  cs.foldl (fun acc c => acc * 10 + digitVal c) 0

/-- Embedding of `datetime.strptime(s, "%Y%m%d")`: 4-digit year, 2-digit month,
2-digit day; raises `ValueError` on a malformed string or an invalid
calendar date. -/
def parseYYYYMMDD (s : String) : Except String Date :=
  let cs := s.toList
  if cs.length == 8 && cs.all Char.isDigit then
    let y := natOfDigits (cs.take 4)
    let m := natOfDigits ((cs.drop 4).take 2)
    let d := natOfDigits ((cs.drop 6).take 2)
    if validDate y m d then Except.ok ⟨y, m, d⟩ else Except.error "ValueError"
  else Except.error "ValueError"

/-- One attempt of the regex `_(\d{12})_` at the head of the character
list: an underscore, twelve digits, an underscore; yields the digit group. -/
def tokenAt (cs : List Char) : Option (List Char) :=
  match cs with
  | '_' :: rest =>
      let ds := rest.take 12
      if ds.length == 12 && ds.all Char.isDigit && (rest.drop 12).head? == some '_'
      then some ds else none
  | _ => none

/-- Embedding of `re.search` for the pattern: the leftmost position where it
matches, scanning left to right. -/
def searchToken (cs : List Char) : Option (List Char) :=
  match cs with
  | [] => none
  | c :: rest =>
      match tokenAt (c :: rest) with
      | some t => some t
      | none => searchToken rest

/-- Embedding of `KiroReportConsolidator.extract_date_from_filename`: find the first
`_(\d{12})_` token, keep its first 8 digits, parse them as `YYYYMMDD`;
raises `ValueError` when there is no token (explicit `raise`) or when the
8-digit prefix is not a valid calendar date (`strptime` failure). -/
def extract_date_from_filename (filename : String) : Except String Date :=
  match searchToken filename.toList with
  | some tok => parseYYYYMMDD (String.mk (tok.take 8))
  | none => Except.error "ValueError"

deriving instance DecidableEq for Except

example : extract_date_from_filename "123456789012_by_user_analytic_202510200000_report.csv"
    = Except.ok ⟨2025, 10, 20⟩ := by decide

example : extract_date_from_filename "no_date_here.csv" = Except.error "ValueError" := by decide

example : extract_date_from_filename "a_202502290000_r.csv" = Except.error "ValueError" := by
  decide

/-! ## File catalog (`list_csv_files`) -/

/-- One object returned by `s3.list_objects_v2` (key, `Size`, `LastModified`,
the last-modified instant abstracted to an integer). -/
structure S3Object where
  key : String
  size : Nat
  lastModified : Int
deriving DecidableEq, Repr

/-- One entry of the catalog's result list: the dict
`{'key', 'date', 'size', 'last_modified'}` built at line 57. -/
structure FileInfo where
  key : String
  date : Date
  size : Nat
  lastModified : Int
deriving DecidableEq, Repr

/-- Embedding of `key.split('/')[-1]`: the suffix after the last `/` (the whole key when
there is no `/`). -/
def lastComponent (key : String) : String :=
  String.mk (key.toList.foldl (fun acc c => if c == '/' then [] else acc ++ [c]) [])

/-- Comparison of `datetime` values (restricted to dates): lexicographic on
(year, month, day). -/
def dateLt (a b : Date) : Bool :=
  a.year < b.year ||
    (a.year == b.year && (a.month < b.month || (a.month == b.month && a.day < b.day)))

/-- Non-strict `datetime` comparison. -/
def dateLe (a b : Date) : Bool := dateLt a b || a == b

/-- Insertion step of a stable ascending sort: place `a` before the first
element it is `le`-below-or-equal. -/
def sortedInsert {α : Type} (le : α → α → Bool) (a : α) : List α → List α
  | [] => [a]
  | b :: t => if le a b then a :: b :: t else b :: sortedInsert le a t

/-- Stable ascending sort by the boolean relation `le`, modelling Python's
`sorted(..., key=...)` and pandas `sort_values` (which fixes only the key
order, not the order of ties). -/
def sortWith {α : Type} (le : α → α → Bool) : List α → List α
  | [] => []
  | a :: t => sortedInsert le a (sortWith le t)

/-- The loop body of `list_csv_files` for one listed object (lines 44–64):
keys not ending in `.csv` are skipped; a `ValueError` from date extraction
skips the file; a file strictly older than `start_date` or strictly newer
than `end_date` is skipped. -/
def catalogEntry (startDate endDate : Option Date) (obj : S3Object) :
    Option FileInfo :=
  if obj.key.endsWith ".csv" then
    match extract_date_from_filename (lastComponent obj.key) with
    | Except.ok d =>
        if (match startDate with | some s => dateLt d s | none => false) then none
        else if (match endDate with | some e => dateLt e d | none => false) then none
        else some ⟨obj.key, d, obj.size, obj.lastModified⟩
    | Except.error _ => none
  else none

/-- Embedding of `KiroReportConsolidator.list_csv_files`.  The object-store listing is an
oracle argument: `Except.error` is a failing `list_objects_v2` call (the
outer `except` returns `[]`), `Except.ok objs` is the response's `Contents`
for the configured bucket and prefix.  The surviving files are sorted
ascending by extracted date. -/
def list_csv_files (listing : Except Unit (List S3Object))
    (startDate endDate : Option Date) : List FileInfo :=
  match listing with
  | Except.error _ => []
  | Except.ok objs =>
      sortWith (fun a b => dateLe a.date b.date)
        (objs.filterMap (catalogEntry startDate endDate))

/-- Follows the spec words (§4.2), for comparison with `catalogEntry`: keep
an object iff its key ends in the tabular-file extension and its filename
date parses, applying the date-range filter inclusively at both bounds. -/
def specCatalogEntry (startDate endDate : Option Date) (obj : S3Object) :
    Option FileInfo :=
  if obj.key.endsWith ".csv" then
    match extract_date_from_filename (lastComponent obj.key) with
    | Except.ok d =>
        if (match startDate with | some s => dateLe s d | none => true)
            && (match endDate with | some e => dateLe d e | none => true)
        then some ⟨obj.key, d, obj.size, obj.lastModified⟩ else none
    | Except.error _ => none
  else none

/-- Follows the spec words (§4.2): the multiset of catalog entries the spec
asks for. -/
def specCatalogKept (objs : List S3Object) (startDate endDate : Option Date) :
    List FileInfo :=
  objs.filterMap (specCatalogEntry startDate endDate)

/-! ## Report ingestion and consolidation (`download_and_parse_csv`,
`consolidate_reports`) -/

/-- One parsed CSV row before the `ReportDate` column is added: the
`UserId` and `Date` columns (the dedup key) plus the remaining columns as a
name-value map. -/
structure CsvRow where
  userId : String
  date : String
  metrics : List (String × String)
deriving DecidableEq, Repr

/-- One row of a stamped batch: a `CsvRow` plus the `ReportDate` column. -/
structure Row where
  userId : String
  date : String
  reportDate : String
  metrics : List (String × String)
deriving DecidableEq, Repr

/-- Zero-pad a number to width 2. -/
def pad2 (n : Nat) : String := if n < 10 then "0" ++ toString n else toString n

/-- Zero-pad a number to width 4. -/
def pad4 (n : Nat) : String :=
  if n < 10 then "000" ++ toString n
  else if n < 100 then "00" ++ toString n
  else if n < 1000 then "0" ++ toString n
  else toString n

/-- Embedding of `file_date.strftime('%Y-%m-%d')`. -/
def dateDashFormat (d : Date) : String :=
  pad4 d.year ++ "-" ++ pad2 d.month ++ "-" ++ pad2 d.day

example : dateDashFormat ⟨2025, 10, 20⟩ = "2025-10-20" := by decide

/-- The column assignment `df['ReportDate'] = file_date.strftime('%Y-%m-%d')` applied to one row. -/
def stampReportDate (rd : String) (r : CsvRow) : Row :=
  ⟨r.userId, r.date, rd, r.metrics⟩

/-- Embedding of `KiroReportConsolidator.download_and_parse_csv`.  The fetch oracle
combines `get_object` and `pd.read_csv`: `Except.error` is any fetch or
parse exception.  On any failure — including a `ValueError` from date
extraction — the `except` clause returns an empty DataFrame; on success the
`ReportDate` column is stamped onto every row. -/
def download_and_parse_csv (fetch : String → Except Unit (List CsvRow))
    (key : String) : List Row :=
  match fetch key with
  | Except.error _ => []
  | Except.ok rows =>
      match extract_date_from_filename (lastComponent key) with
      | Except.ok d => rows.map (stampReportDate (dateDashFormat d))
      | Except.error _ => []

/-- The dedup key: `subset=['UserId', 'Date']`. -/
def rowKey (r : Row) : String × String := (r.userId, r.date)

/-- Embedding of `drop_duplicates(subset=['UserId', 'Date'], keep='last')`: a row is kept
iff no later row has the same key. -/
def drop_duplicates_keep_last (l : List Row) : List Row :=
  match l with
  | [] => []
  | r :: rest =>
      if rest.any (fun s => rowKey s == rowKey r) then drop_duplicates_keep_last rest
      else r :: drop_duplicates_keep_last rest

/-- The sort key of `sort_values(['ReportDate', 'UserId'])`: lexicographic
on the two string columns. -/
def rowLe (a b : Row) : Bool :=
  decide (a.reportDate < b.reportDate) ||
    (a.reportDate == b.reportDate && decide (a.userId ≤ b.userId))

/-- Lines 115–136 of `consolidate_reports`, applied to the collected list of
batches: empty input yields an empty DataFrame and a "no data" message;
otherwise concatenate, drop duplicate `(UserId, Date)` keys keeping the last
occurrence, and sort by `(ReportDate, UserId)`. -/
def consolidate_core (dfs : List (List Row)) : List Row :=
  if dfs.isEmpty then []
  else sortWith rowLe (drop_duplicates_keep_last dfs.flatten)

/-- Embedding of `KiroReportConsolidator.consolidate_reports`: catalog, download each
file in date order, keep the non-empty batches, consolidate. -/
def consolidate_reports (listing : Except Unit (List S3Object))
    (fetch : String → Except Unit (List CsvRow))
    (startDate endDate : Option Date) : List Row :=
  let csvFiles := list_csv_files listing startDate endDate
  if csvFiles.isEmpty then []
  else
    consolidate_core
      ((csvFiles.map fun f => download_and_parse_csv fetch f.key).filter
        fun d => !d.isEmpty)

/-! ## Region aggregation (`consolidate_region_data`) -/

/-- The keys of `SUPPORTED_REGIONS` in `kiro_tracker_with_iam.py`. -/
inductive Region
  | usEast1
  | usWest2
  | euCentral1
  | apNortheast1
  | apNortheast2
  | apSoutheast1
  | apSoutheast2
deriving DecidableEq, Repr

/-- The region code string written into the `Region` column. -/
def regionCode : Region → String
  | Region.usEast1 => "us-east-1"
  | Region.usWest2 => "us-west-2"
  | Region.euCentral1 => "eu-central-1"
  | Region.apNortheast1 => "ap-northeast-1"
  | Region.apNortheast2 => "ap-northeast-2"
  | Region.apSoutheast1 => "ap-southeast-1"
  | Region.apSoutheast2 => "ap-southeast-2"

/-- The label `SUPPORTED_REGIONS[region]`, written into the `RegionName` column. -/
def regionLabel : Region → String
  | Region.usEast1 => "US East (N. Virginia)"
  | Region.usWest2 => "US West (Oregon)"
  | Region.euCentral1 => "Europe (Frankfurt)"
  | Region.apNortheast1 => "Asia Pacific (Tokyo)"
  | Region.apNortheast2 => "Asia Pacific (Seoul)"
  | Region.apSoutheast1 => "Asia Pacific (Singapore)"
  | Region.apSoutheast2 => "Asia Pacific (Sydney)"

/-- A consolidated row after `df['Region'] = region` and
`df['RegionName'] = SUPPORTED_REGIONS[region]`. -/
structure TaggedRow where
  row : Row
  regionCol : String
  regionNameCol : String
deriving DecidableEq, Repr

/-- Tagging one row of a region's DataFrame. -/
def tagRegion (reg : Region) (r : Row) : TaggedRow :=
  ⟨r, regionCode reg, regionLabel reg⟩

/-- Outcome of processing one region inside the `try` of
`consolidate_region_data` (lines 145–171): `err` is an exception escaping
this region's step — `subprocess.run(..., timeout=300)` raising
`TimeoutExpired`, or `pd.read_csv`/`unlink` failing on an existing temp
file — which the function's outer `except` turns into a whole-run `False`;
`procFail` is a non-zero exit (warning, region skipped); `noFile` is a zero
exit that left no temp file (skipped); `frame rows` is a temp file read
back as these rows (possibly none). -/
inductive RegionOutcome
  | err
  | procFail
  | noFile
  | frame (rows : List Row)
deriving DecidableEq, Repr

/-- The frame contributed to `all_dataframes` by one region that did not
raise: a present, non-empty frame is tagged with the `Region` and
`RegionName` columns; a failed or empty run contributes nothing (only a
warning or status message). -/
def regionFrame (data : Region → RegionOutcome) (reg : Region) :
    Option (List TaggedRow) :=
  match data reg with
  | RegionOutcome.frame rows =>
      if rows.isEmpty then none else some (rows.map (tagRegion reg))
  | _ => none

/-- The region loop of `consolidate_region_data`: regions are processed in
order, collecting tagged non-empty frames; an exception at any region
escapes to the outer `except` (`Except.error`), abandoning the rest. -/
def regionLoop (data : Region → RegionOutcome)
    (acc : List (List TaggedRow)) :
    List Region → Except Unit (List (List TaggedRow))
  | [] => Except.ok acc
  | reg :: rest =>
      match data reg with
      | RegionOutcome.err => Except.error ()
      | RegionOutcome.procFail => regionLoop data acc rest
      | RegionOutcome.noFile => regionLoop data acc rest
      | RegionOutcome.frame rows =>
          if rows.isEmpty then regionLoop data acc rest
          else regionLoop data (acc ++ [rows.map (tagRegion reg)]) rest

/-- Embedding of `KiroTrackerWithIAM.consolidate_region_data`.  An
exception inside the region loop is caught by the outer `except` and
returns `False`; otherwise the run returns `False` when no frame was
collected, and else writes the concatenated frame to a timestamped
artifact — `writeOk` is the outcome of that `to_csv` call, whose failure
is also caught by the outer `except` and returns `False` — and returns
`True`. -/
def consolidate_region_data (data : Region → RegionOutcome) (writeOk : Bool)
    (regions : List Region) : Bool × List TaggedRow :=
  match regionLoop data [] regions with
  | Except.error _ => (false, [])
  | Except.ok dfs =>
      if dfs.isEmpty then (false, [])
      else if writeOk then (true, dfs.flatten) else (false, [])

/-- A region "yields data" when its subprocess run succeeds and produces a
non-empty frame. -/
def regionHasData (data : Region → RegionOutcome) (reg : Region) : Bool :=
  match data reg with
  | RegionOutcome.frame rows => !rows.isEmpty
  | _ => false

/-! ## Identity cache (`IAMIdentityCenterMapper`) -/

/-- A JSON-ish value stored in a user-info dict: the code stores strings and
the `time.time()` timestamp (abstracted to integer epoch seconds). -/
inductive Val
  | str (s : String)
  | num (n : Int)
deriving DecidableEq, Repr

/-- Python-dict lookup on an association list (first matching key). -/
def alookup {α : Type} (l : List (String × α)) (key : String) : Option α :=
  match l with
  | [] => none
  | (k, v) :: rest => if k == key then some v else alookup rest key

/-- Python-dict assignment `d[key] = v`: update in place, else append. -/
def ainsert {α : Type} (l : List (String × α)) (key : String) (v : α) :
    List (String × α) :=
  match l with
  | [] => [(key, v)]
  | (k, w) :: rest =>
      if k == key then (k, v) :: rest else (k, w) :: ainsert rest key v

/-- A user-info dict, as built by the mapper or loaded from
`data/user_cache.json`. -/
abbrev UserDict := List (String × Val)

/-- The mapper's `user_cache`: user_id → user-info dict. -/
abbrev Cache := List (String × UserDict)

/-- A `describe_user` response: the attributes the code reads
(`UserName`, `DisplayName`, `Name.GivenName`, `Name.FamilyName`, and the
`Value` of each entry of `Emails`). -/
structure DescribeResp where
  userName : Option String
  displayName : Option String
  givenName : Option String
  familyName : Option String
  emails : List (Option String)
deriving DecidableEq, Repr

/-- Outcome of one `describe_user` call: a response, or any exception
(including "user not found"). -/
inductive DirResult
  | ok (resp : DescribeResp)
  | err
deriving DecidableEq, Repr

/-- The expression `emails[0].get("Value", "") if emails else ""`. -/
def firstEmail (emails : List (Option String)) : String :=
  match emails with
  | [] => ""
  | e :: _ => e.getD ""

/-- The `user_info` dict built from a successful `describe_user` response
(lines 107–121; the `email` key is written `""` first and overwritten in
place, so its final value and position are as below). -/
def mkUserInfo (uid : String) (resp : DescribeResp) (now : Int) : UserDict :=
  [("user_id", Val.str uid),
   ("username", Val.str (resp.userName.getD "")),
   ("display_name", Val.str (resp.displayName.getD "")),
   ("email", Val.str (firstEmail resp.emails)),
   ("first_name", Val.str (resp.givenName.getD "")),
   ("last_name", Val.str (resp.familyName.getD "")),
   ("cached_at", Val.num now),
   ("source", Val.str "iam_identity_center")]

/-- The fallback dict returned when the directory is unavailable or the
lookup failed (lines 133–142); `user_id[:8]` is the first 8 characters. -/
def fallbackInfo (uid : String) (now : Int) : UserDict :=
  [("user_id", Val.str uid),
   ("username", Val.str ("User-" ++ String.mk (uid.toList.take 8))),
   ("display_name", Val.str ("User-" ++ String.mk (uid.toList.take 8))),
   ("email", Val.str ""),
   ("first_name", Val.str ""),
   ("last_name", Val.str ""),
   ("cached_at", Val.num now),
   ("source", Val.str "fallback")]

/-- Python truthiness of `self.identity_store_id` (`None` and `""` are
falsy). -/
def truthyOpt (o : Option String) : Bool :=
  match o with
  | none => false
  | some s => !(s == "")

/-- The lookup `cached_info.get("cached_at", 0)` used in `time.time() - …`: a missing
key defaults to `0`; a non-numeric value makes the subtraction raise a
`TypeError`, which nothing in `get_user_info` catches. -/
def cachedAtOf (d : UserDict) : Except String Int :=
  match (alookup d "cached_at").getD (Val.num 0) with
  | Val.num n => Except.ok n
  | Val.str _ => Except.error "TypeError"

/-- Lines 100–142 of `get_user_info`: the directory attempt and the
fallback.  Returns the info dict, the cache afterwards, and the number of
`describe_user` calls issued (1 whenever the client and store id are
configured, else 0).  On success the record is cached (and the cache file
persisted — persistence is not modelled); on failure or with no configured
directory the fallback dict is returned and the cache is untouched. -/
def directory_query (clientsOk : Bool) (storeId : Option String)
    (dir : DirResult) (now : Int) (cache : Cache) (uid : String) :
    UserDict × Cache × Nat :=
  if clientsOk && truthyOpt storeId then
    match dir with
    | DirResult.ok resp =>
        let info := mkUserInfo uid resp now
        (info, ainsert cache uid info, 1)
    | DirResult.err => (fallbackInfo uid now, cache, 1)
  else (fallbackInfo uid now, cache, 0)

/-- Embedding of `IAMIdentityCenterMapper.get_user_info`.  `clientsOk` is
`identity_store_client is not None`, `storeId` is `identity_store_id`,
`dir` the outcome the directory would give for this call, `now` the value
of `time.time()`.  A cached entry younger than 86400 seconds is returned
unchanged; otherwise the directory is consulted.  The only uncaught
exception is the `TypeError` from a non-numeric `cached_at` in a loaded
cache entry. -/
def get_user_info (clientsOk : Bool) (storeId : Option String)
    (dir : DirResult) (now : Int) (cache : Cache) (uid : String) :
    Except String (UserDict × Cache × Nat) :=
  match alookup cache uid with
  | some cached =>
      match cachedAtOf cached with
      | Except.error e => Except.error e
      | Except.ok ca =>
          if now - ca < 86400 then Except.ok (cached, cache, 0)
          else Except.ok (directory_query clientsOk storeId dir now cache uid)
  | none => Except.ok (directory_query clientsOk storeId dir now cache uid)

/-- Loop body of `bulk_get_users`: `results[user_id] = get_user_info(...)`,
threading the cache. -/
def bulk_get_go (clientsOk : Bool) (storeId : Option String)
    (dirOf : String → DirResult) (now : Int)
    (acc : List (String × UserDict)) (cache : Cache) (uids : List String) :
    Except String (List (String × UserDict) × Cache) :=
  match uids with
  | [] => Except.ok (acc, cache)
  | uid :: rest =>
      match get_user_info clientsOk storeId (dirOf uid) now cache uid with
      | Except.error e => Except.error e
      | Except.ok (info, c2, _) =>
          bulk_get_go clientsOk storeId dirOf now (ainsert acc uid info) c2 rest

/-- Embedding of `IAMIdentityCenterMapper.bulk_get_users`: resolve each id via
`get_user_info`, collecting a results dict. -/
def bulk_get_users (clientsOk : Bool) (storeId : Option String)
    (dirOf : String → DirResult) (now : Int) (cache : Cache)
    (uids : List String) : Except String (List (String × UserDict) × Cache) :=
  bulk_get_go clientsOk storeId dirOf now [] cache uids

/-- One user dict from a `list_users` page, with the attributes the code
reads (`UserId` is mandatory). -/
structure RawUser where
  userId : String
  userName : Option String
  displayName : Option String
  givenName : Option String
  familyName : Option String
  emails : List (Option String)
deriving DecidableEq, Repr

/-- The `user_info` dict built for one `list_users` entry (lines 164–177). -/
def rawUserInfo (u : RawUser) (now : Int) : UserDict :=
  [("user_id", Val.str u.userId),
   ("username", Val.str (u.userName.getD "")),
   ("display_name", Val.str (u.displayName.getD "")),
   ("email", Val.str (firstEmail u.emails)),
   ("first_name", Val.str (u.givenName.getD "")),
   ("last_name", Val.str (u.familyName.getD "")),
   ("cached_at", Val.num now),
   ("source", Val.str "iam_identity_center")]

/-- Embedding of `IAMIdentityCenterMapper.list_all_users`.  The paginated `list_users`
responses are an oracle, flattened to one list; `Except.error` is an
exception during listing (the `except` returns `[]`).  Every user found is
appended to the result and stored in the cache. -/
def list_all_users (clientsOk : Bool) (storeId : Option String)
    (usersRes : Except Unit (List RawUser)) (now : Int) (cache : Cache) :
    List UserDict × Cache :=
  if !(clientsOk && truthyOpt storeId) then ([], cache)
  else
    match usersRes with
    | Except.error _ => ([], cache)
    | Except.ok us =>
        us.foldl
          (fun acc u =>
            let info := rawUserInfo u now
            (acc.1 ++ [info], ainsert acc.2 u.userId info))
          ([], cache)

/-- Embedding of `IAMIdentityCenterMapper.search_user_by_username`.  The filtered
`list_users` call is an oracle; its first result, if any, is resolved via
`get_user_info` (whose `dir` outcome is the second oracle).  Any exception
inside the `try` — including the `TypeError` `get_user_info` can raise,
which occurs before any cache mutation — is caught and `None` returned. -/
def search_user_by_username (clientsOk : Bool) (storeId : Option String)
    (searchRes : Except Unit (List RawUser)) (dir : DirResult) (now : Int)
    (cache : Cache) : Option UserDict × Cache :=
  if !(clientsOk && truthyOpt storeId) then (none, cache)
  else
    match searchRes with
    | Except.error _ => (none, cache)
    | Except.ok [] => (none, cache)
    | Except.ok (u :: _) =>
        match get_user_info clientsOk storeId dir now cache u.userId with
        | Except.error _ => (none, cache)
        | Except.ok (info, c2, _) => (some info, c2)

/-- The eight keys every record built by the mapper carries. -/
def requiredFields : List String :=
  ["user_id", "username", "display_name", "email", "first_name", "last_name",
   "cached_at", "source"]

/-- A dict has all eight record fields. -/
def hasAllFields (d : UserDict) : Bool :=
  requiredFields.all fun f => (alookup d f).isSome

/-- A well-formed record, shaped like the records the mapper itself writes:
all eight fields present, a numeric `cached_at`, and a `source` of
`"iam_identity_center"` or `"fallback"`. -/
def wellFormedInfo (d : UserDict) : Bool :=
  hasAllFields d &&
    (match alookup d "cached_at" with
     | some (Val.num _) => true
     | _ => false) &&
    (alookup d "source" == some (Val.str "iam_identity_center") ||
      alookup d "source" == some (Val.str "fallback"))

/-! ## Order lemmas for dates and rows -/

theorem dateLt_iff (a b : Date) : dateLt a b = true ↔
    (a.year < b.year ∨
      (a.year = b.year ∧ (a.month < b.month ∨ (a.month = b.month ∧ a.day < b.day)))) := by
  simp [dateLt]

theorem dateLe_iff (a b : Date) : dateLe a b = true ↔
    (dateLt a b = true ∨ (a.year = b.year ∧ a.month = b.month ∧ a.day = b.day)) := by
  cases a; cases b; simp [dateLe, Date.mk.injEq]

theorem dateLe_total (a b : Date) : (dateLe a b || dateLe b a) = true := by
  simp [dateLe_iff, dateLt_iff]
  omega

theorem dateLe_trans (a b c : Date) :
    dateLe a b = true → dateLe b c = true → dateLe a c = true := by
  simp [dateLe_iff, dateLt_iff]
  omega

theorem dateLt_false_iff (a b : Date) : dateLt a b = false ↔ dateLe b a = true := by
  rw [← Bool.not_eq_true]
  simp [dateLe_iff, dateLt_iff]
  omega

theorem dateLt_le_asymm (a b : Date) :
    dateLt a b = true → dateLe b a = true → False := by
  simp [dateLe_iff, dateLt_iff]
  omega

/-! ### The insertion sort is a permutation and sorts -/

theorem sortedInsert_perm {α : Type} (le : α → α → Bool) (a : α) (l : List α) :
    (sortedInsert le a l).Perm (a :: l) := by
  induction l with
  | nil => simp [sortedInsert]
  | cons b t ih =>
      rw [sortedInsert]
      cases h : le a b
      · simp only [Bool.false_eq_true, if_false]
        exact (ih.cons b).trans (List.Perm.swap a b t)
      · simp

theorem sortWith_perm {α : Type} (le : α → α → Bool) (l : List α) :
    (sortWith le l).Perm l := by
  induction l with
  | nil => simp [sortWith]
  | cons a t ih =>
      rw [sortWith]
      exact (sortedInsert_perm le a (sortWith le t)).trans (ih.cons a)

theorem pairwise_sortedInsert {α : Type} (le : α → α → Bool)
    (htrans : ∀ a b c, le a b = true → le b c = true → le a c = true)
    (htot : ∀ a b, (le a b || le b a) = true) (a : α) (l : List α)
    (h : l.Pairwise (fun x y => le x y = true)) :
    (sortedInsert le a l).Pairwise (fun x y => le x y = true) := by
  induction l with
  | nil => simp [sortedInsert]
  | cons b t ih =>
      rw [List.pairwise_cons] at h
      obtain ⟨hb, ht⟩ := h
      rw [sortedInsert]
      cases hab : le a b
      · simp only [Bool.false_eq_true, if_false]
        rw [List.pairwise_cons]
        refine ⟨fun x hx => ?_, ih ht⟩
        have hx2 := (sortedInsert_perm le a t).mem_iff.mp hx
        rcases List.mem_cons.mp hx2 with heq | hxt
        · rw [heq]
          have h2 := htot a b
          rw [hab] at h2
          simpa using h2
        · exact hb x hxt
      · rw [if_pos rfl]
        rw [List.pairwise_cons]
        refine ⟨fun x hx => ?_, List.pairwise_cons.mpr ⟨hb, ht⟩⟩
        rcases List.mem_cons.mp hx with heq | hxt
        · subst heq; exact hab
        · exact htrans a b x hab (hb x hxt)

theorem pairwise_sortWith {α : Type} (le : α → α → Bool)
    (htrans : ∀ a b c, le a b = true → le b c = true → le a c = true)
    (htot : ∀ a b, (le a b || le b a) = true) (l : List α) :
    (sortWith le l).Pairwise (fun x y => le x y = true) := by
  induction l with
  | nil => simp [sortWith]
  | cons a t ih =>
      rw [sortWith]
      exact pairwise_sortedInsert le htrans htot a (sortWith le t) ih

/-- The code's per-object catalog filter coincides with the spec's: the
strict-exclusion tests `file_date < start_date` / `file_date > end_date`
are exactly the complement of the inclusive-range test. -/
theorem catalogEntry_eq_spec (s e : Option Date) (obj : S3Object) :
    catalogEntry s e obj = specCatalogEntry s e obj := by
  unfold catalogEntry specCatalogEntry
  cases hcsv : obj.key.endsWith ".csv"
  · simp
  · simp only [if_pos rfl]
    cases hx : extract_date_from_filename (lastComponent obj.key) with
    | error _ => rfl
    | ok d =>
        cases s with
        | none =>
            cases e with
            | none => simp
            | some ev =>
                cases hlt : dateLt ev d
                · simp [hlt, (dateLt_false_iff ev d).mp hlt]
                · have : dateLe d ev = false := by
                    cases hle : dateLe d ev
                    · rfl
                    · exact (dateLt_le_asymm ev d hlt hle).elim
                  simp [hlt, this]
        | some sv =>
            cases hlt : dateLt d sv
            · have hs : dateLe sv d = true := (dateLt_false_iff d sv).mp hlt
              cases e with
              | none => simp [hlt, hs]
              | some ev =>
                  cases hlt2 : dateLt ev d
                  · simp [hlt, hlt2, hs, (dateLt_false_iff ev d).mp hlt2]
                  · have : dateLe d ev = false := by
                      cases hle : dateLe d ev
                      · rfl
                      · exact (dateLt_le_asymm ev d hlt2 hle).elim
                    simp [hlt, hlt2, hs, this]
            · have hs : dateLe sv d = false := by
                cases hle : dateLe sv d
                · rfl
                · exact (dateLt_le_asymm d sv hlt hle).elim
              simp [hlt, hs]

/-- C3 helper: sortedness relation on catalog entries. -/
theorem catalog_sorted (files : List FileInfo) :
    List.Chain' (fun a b => dateLe a.date b.date = true)
      (sortWith (fun a b => dateLe a.date b.date) files) :=
  (pairwise_sortWith (fun a b => dateLe a.date b.date)
    (fun a b c hab hbc => dateLe_trans a.date b.date c.date hab hbc)
    (fun a b => dateLe_total a.date b.date) files).chain'

/-- C3: for every object-store state and optional bounds, `list_csv_files`
returns exactly (up to the sort's reordering) the objects whose key ends in
`.csv` and whose filename date parses, the date-range bounds applied
inclusively; the result is non-decreasing in extracted date; a listing
failure escapes as an empty result, not an error. -/
theorem C3_list_csv_files_catalog (objs : List S3Object) (s e : Option Date) :
    (list_csv_files (Except.ok objs) s e).Perm (specCatalogKept objs s e)
    ∧ List.Chain' (fun a b => dateLe a.date b.date = true)
        (list_csv_files (Except.ok objs) s e)
    ∧ list_csv_files (Except.error ()) s e = [] := by
  refine ⟨?_, ?_, rfl⟩
  · have hfg : catalogEntry s e = specCatalogEntry s e :=
      funext fun obj => catalogEntry_eq_spec s e obj
    have hperm := sortWith_perm (fun a b => dateLe a.date b.date)
      (objs.filterMap (catalogEntry s e))
    unfold list_csv_files specCatalogKept
    rw [hfg] at hperm ⊢
    exact hperm
  · exact catalog_sorted _

theorem rowLe_total (a b : Row) : (rowLe a b || rowLe b a) = true := by
  simp only [rowLe, Bool.or_eq_true, Bool.and_eq_true, decide_eq_true_eq, beq_iff_eq]
  rcases lt_trichotomy a.reportDate b.reportDate with h | h | h
  · exact Or.inl (Or.inl h)
  · rcases le_total a.userId b.userId with h2 | h2
    · exact Or.inl (Or.inr ⟨h, h2⟩)
    · exact Or.inr (Or.inr ⟨h.symm, h2⟩)
  · exact Or.inr (Or.inl h)

theorem rowLe_trans (a b c : Row) :
    rowLe a b = true → rowLe b c = true → rowLe a c = true := by
  simp only [rowLe, Bool.or_eq_true, Bool.and_eq_true, decide_eq_true_eq, beq_iff_eq]
  rintro (h1 | ⟨h1, h1u⟩) (h2 | ⟨h2, h2u⟩)
  · exact Or.inl (lt_trans h1 h2)
  · exact Or.inl (h2 ▸ h1)
  · exact Or.inl (h1 ▸ h2)
  · exact Or.inr ⟨h1.trans h2, le_trans h1u h2u⟩

/-! ## Deduplication lemmas -/

theorem mem_of_mem_dd {r : Row} {l : List Row} :
    r ∈ drop_duplicates_keep_last l → r ∈ l := by
  induction l with
  | nil => simp [drop_duplicates_keep_last]
  | cons x rest ih =>
      cases hany : rest.any (fun s => rowKey s == rowKey x) with
      | true =>
          simp only [drop_duplicates_keep_last, hany, if_pos rfl]
          intro hr
          exact List.mem_cons_of_mem x (ih hr)
      | false =>
          simp only [drop_duplicates_keep_last, hany]
          intro hr
          rcases List.mem_cons.mp hr with h | h
          · exact h ▸ List.mem_cons_self x rest
          · exact List.mem_cons_of_mem x (ih h)

theorem getLast?_cons_some {α : Type} {x a : α} {l : List α}
    (h : l.getLast? = some a) : (x :: l).getLast? = some a := by
  cases l with
  | nil => simp at h
  | cons y t => rw [List.getLast?_cons_cons]; exact h

/-- A row surviving `keep='last'` dedup is the last row with its key in the
input. -/
theorem dd_last {r : Row} {l : List Row}
    (h : r ∈ drop_duplicates_keep_last l) :
    (l.filter (fun s => rowKey s == rowKey r)).getLast? = some r := by
  induction l with
  | nil => simp [drop_duplicates_keep_last] at h
  | cons x rest ih =>
      cases hany : rest.any (fun s => rowKey s == rowKey x) with
      | true =>
          rw [drop_duplicates_keep_last, if_pos hany] at h
          have hrest := ih h
          rw [List.filter_cons]
          cases hx : rowKey x == rowKey r
          · simpa [hx] using hrest
          · simp only [hx, if_pos rfl]
            exact getLast?_cons_some hrest
      | false =>
          rw [drop_duplicates_keep_last, hany] at h
          simp only [Bool.false_eq_true, if_false] at h
          simp only [List.any_eq_false, beq_iff_eq] at hany
          rcases List.mem_cons.mp h with heq | hmem
          · rw [heq]
            have hnone : rest.filter (fun s => rowKey s == rowKey x) = [] := by
              rw [List.filter_eq_nil_iff]
              intro s hs
              simpa using hany s hs
            rw [List.filter_cons]
            simp [hnone]
          · have hrest := ih hmem
            have hrmem : r ∈ rest := mem_of_mem_dd hmem
            have hne : (rowKey x == rowKey r) = false := by
              simp only [beq_eq_false_iff_ne, ne_eq]
              intro hxy
              exact hany r hrmem hxy.symm
            rw [List.filter_cons]
            simpa [hne] using hrest

/-- After `keep='last'` dedup, each key occurs at most once. -/
theorem dd_count (l : List Row) (k : String × String) :
    ((drop_duplicates_keep_last l).filter (fun s => rowKey s == k)).length ≤ 1 := by
  induction l with
  | nil => simp [drop_duplicates_keep_last]
  | cons x rest ih =>
      cases hany : rest.any (fun s => rowKey s == rowKey x) with
      | true => rw [drop_duplicates_keep_last, if_pos hany]; exact ih
      | false =>
          rw [drop_duplicates_keep_last, hany]
          simp only [Bool.false_eq_true, if_false]
          rw [List.filter_cons]
          cases hx : rowKey x == k
          · simpa [hx] using ih
          · simp only [hx, if_pos rfl]
            simp only [List.any_eq_false, beq_iff_eq] at hany
            have hnone :
                (drop_duplicates_keep_last rest).filter (fun s => rowKey s == k) = [] := by
              rw [List.filter_eq_nil_iff]
              intro s hs
              have hsrest : s ∈ rest := mem_of_mem_dd hs
              simp only [beq_iff_eq] at hx ⊢
              intro hsk
              exact hany s hsrest (hsk.trans hx.symm)
            simp [hnone]

/-- Every key present in the input survives dedup. -/
theorem dd_key_cover (l : List Row) :
    ∀ s, s ∈ l → ∃ r, r ∈ drop_duplicates_keep_last l ∧ rowKey r = rowKey s := by
  induction l with
  | nil => intro s hs; simp at hs
  | cons x rest ih =>
      intro s hs
      cases hany : rest.any (fun t => rowKey t == rowKey x) with
      | true =>
          rw [drop_duplicates_keep_last, if_pos hany]
          rcases List.mem_cons.mp hs with heq | hmem
          · obtain ⟨t, ht, htk⟩ := List.any_eq_true.mp hany
            obtain ⟨r, hr, hrk⟩ := ih t ht
            rw [heq]
            exact ⟨r, hr, hrk.trans (beq_iff_eq.mp htk)⟩
          · exact ih s hmem
      | false =>
          rw [drop_duplicates_keep_last, hany]
          simp only [Bool.false_eq_true, if_false]
          rcases List.mem_cons.mp hs with heq | hmem
          · exact ⟨x, List.mem_cons_self _ _, by rw [heq]⟩
          · obtain ⟨r, hr, hrk⟩ := ih s hmem
            exact ⟨r, List.mem_cons_of_mem x hr, hrk⟩

/-- C1: the consolidated output of `consolidate_core` has at most one row
per `(UserId, Date)` key; every surviving row is the last row with its key
in the concatenation of the batches in processing order (last write wins by
processing order); and every key occurring in the batches survives. -/
theorem C1_dedup_last_write_wins (dfs : List (List Row)) :
    (∀ k : String × String,
        ((consolidate_core dfs).filter (fun r => rowKey r == k)).length ≤ 1)
    ∧ (∀ r, r ∈ consolidate_core dfs →
        (dfs.flatten.filter (fun s => rowKey s == rowKey r)).getLast? = some r)
    ∧ (∀ s, s ∈ dfs.flatten →
        ∃ r, r ∈ consolidate_core dfs ∧ rowKey r = rowKey s) := by
  cases hE : dfs.isEmpty with
  | true =>
      have : dfs = [] := List.isEmpty_iff.mp hE
      subst this
      refine ⟨fun k => ?_, fun r hr => ?_, fun s hs => ?_⟩
      · simp [consolidate_core]
      · simp [consolidate_core] at hr
      · simp at hs
  | false =>
      have hperm :
          (consolidate_core dfs).Perm (drop_duplicates_keep_last dfs.flatten) := by
        unfold consolidate_core
        rw [hE]
        simp only [Bool.false_eq_true, if_false]
        exact sortWith_perm _ _
      refine ⟨fun k => ?_, fun r hr => ?_, fun s hs => ?_⟩
      · have := (hperm.filter (fun r => rowKey r == k)).length_eq
        rw [this]
        exact dd_count _ k
      · exact dd_last (hperm.mem_iff.mp hr)
      · obtain ⟨r, hr, hrk⟩ := dd_key_cover dfs.flatten s hs
        exact ⟨r, hperm.mem_iff.mpr hr, hrk⟩

/-- C1 witness: two batches each holding a row for key `("u1", "2025-10-20")`
processed in order; the surviving row is the second batch's. -/
theorem C1_dedup_last_write_wins_witness :
    (([[Row.mk "u1" "2025-10-20" "2025-10-20" [("Chat_MessagesSent", "5")]],
       [Row.mk "u1" "2025-10-20" "2025-10-20" [("Chat_MessagesSent", "9")]]] :
        List (List Row)).flatten.filter
      (fun s => rowKey s ==
        rowKey (Row.mk "u1" "2025-10-20" "2025-10-20"
          [("Chat_MessagesSent", "9")]))).getLast?
      = some (Row.mk "u1" "2025-10-20" "2025-10-20" [("Chat_MessagesSent", "9")]) :=
  (C1_dedup_last_write_wins
    [[Row.mk "u1" "2025-10-20" "2025-10-20" [("Chat_MessagesSent", "5")]],
     [Row.mk "u1" "2025-10-20" "2025-10-20" [("Chat_MessagesSent", "9")]]]).2.1
    (Row.mk "u1" "2025-10-20" "2025-10-20" [("Chat_MessagesSent", "9")])
    (by decide)

theorem consolidate_core_sorted (dfs : List (List Row)) :
    List.Chain' (fun a b => rowLe a b = true) (consolidate_core dfs) := by
  cases hE : dfs.isEmpty with
  | true => simp [consolidate_core, hE]
  | false =>
      unfold consolidate_core
      rw [hE]
      simp only [Bool.false_eq_true, if_false]
      exact (pairwise_sortWith rowLe rowLe_trans rowLe_total
        (drop_duplicates_keep_last dfs.flatten)).chain'

/-- C2: every consolidated dataset returned by `consolidate_reports` is
non-decreasing in the lexicographic `(ReportDate, UserId)` string order:
each consecutive pair of rows is related by `rowLe`. -/
theorem C2_consolidated_sorted (listing : Except Unit (List S3Object))
    (fetch : String → Except Unit (List CsvRow))
    (startDate endDate : Option Date) :
    List.Chain' (fun a b => rowLe a b = true)
      (consolidate_reports listing fetch startDate endDate) := by
  unfold consolidate_reports
  cases hE : (list_csv_files listing startDate endDate).isEmpty
  · simp only [hE, Bool.false_eq_true, if_false]
    exact consolidate_core_sorted _
  · simp only [hE, if_pos rfl]
    exact List.chain'_nil

/-- C7: a fetch or parse failure (and likewise a date-extraction failure)
yields an empty batch rather than an error; on success the batch is the
parsed rows each stamped with `ReportDate` equal to the date extracted from
the filename. -/
theorem C7_ingestor_error_isolation (fetch : String → Except Unit (List CsvRow))
    (key : String) :
    ((fetch key).toOption = none → download_and_parse_csv fetch key = [])
    ∧ ((extract_date_from_filename (lastComponent key)).toOption = none →
        download_and_parse_csv fetch key = [])
    ∧ (∀ rows d, fetch key = Except.ok rows →
        extract_date_from_filename (lastComponent key) = Except.ok d →
        download_and_parse_csv fetch key
            = rows.map (stampReportDate (dateDashFormat d))
          ∧ ∀ r, r ∈ download_and_parse_csv fetch key →
              r.reportDate = dateDashFormat d) := by
  refine ⟨?_, ?_, ?_⟩
  · intro h
    unfold download_and_parse_csv
    cases hf : fetch key with
    | error _ => rfl
    | ok rows => rw [hf] at h; simp [Except.toOption] at h
  · intro h
    unfold download_and_parse_csv
    cases hf : fetch key with
    | error _ => rfl
    | ok rows =>
        cases hx : extract_date_from_filename (lastComponent key) with
        | error _ => rfl
        | ok d => rw [hx] at h; simp [Except.toOption] at h
  · intro rows d hf hx
    have hout : download_and_parse_csv fetch key
        = rows.map (stampReportDate (dateDashFormat d)) := by
      unfold download_and_parse_csv
      rw [hf, hx]
    refine ⟨hout, fun r hr => ?_⟩
    rw [hout] at hr
    obtain ⟨c, _, hc⟩ := List.mem_map.mp hr
    rw [← hc]
    rfl

/-! ### Region aggregation -/

theorem regionFrame_none_iff (data : Region → RegionOutcome) (reg : Region) :
    regionFrame data reg = none ↔ regionHasData data reg = false := by
  unfold regionFrame regionHasData
  cases data reg with
  | err => simp
  | procFail => simp
  | noFile => simp
  | frame rows => cases h : rows.isEmpty <;> simp [h]

theorem regionFrame_some (data : Region → RegionOutcome) (reg : Region)
    (df : List TaggedRow) (h : regionFrame data reg = some df) :
    ∃ rows, data reg = RegionOutcome.frame rows ∧ rows.isEmpty = false
      ∧ df = rows.map (tagRegion reg) := by
  unfold regionFrame at h
  cases hd : data reg with
  | err => rw [hd] at h; exact absurd h (by simp)
  | procFail => rw [hd] at h; exact absurd h (by simp)
  | noFile => rw [hd] at h; exact absurd h (by simp)
  | frame rows =>
      rw [hd] at h
      have h2 : (if rows.isEmpty = true then none
          else some (rows.map (tagRegion reg))) = some df := h
      cases hrows : rows.isEmpty
      · rw [hrows] at h2
        simp only [Bool.false_eq_true, if_false, Option.some.injEq] at h2
        exact ⟨rows, rfl, hrows, h2.symm⟩
      · rw [hrows] at h2
        simp at h2

/-- When no region raises, the loop completes and collects exactly the
tagged non-empty frames in region order. -/
theorem regionLoop_ok_of_no_err (data : Region → RegionOutcome) :
    ∀ (regions : List Region) (acc : List (List TaggedRow)),
      (∀ reg, reg ∈ regions → data reg ≠ RegionOutcome.err) →
      regionLoop data acc regions
        = Except.ok (acc ++ regions.filterMap (regionFrame data)) := by
  intro regions
  induction regions with
  | nil =>
      intro acc _
      rw [List.filterMap_nil, List.append_nil]
      rfl
  | cons r rest ih =>
      intro acc herr
      simp only [regionLoop]
      split
      · rename_i hd
        exact absurd hd (herr r (List.mem_cons_self _ _))
      · rename_i hd
        have hfr : regionFrame data r = none := by simp [regionFrame, hd]
        rw [List.filterMap_cons, hfr]
        exact ih acc (fun x hx => herr x (List.mem_cons_of_mem _ hx))
      · rename_i hd
        have hfr : regionFrame data r = none := by simp [regionFrame, hd]
        rw [List.filterMap_cons, hfr]
        exact ih acc (fun x hx => herr x (List.mem_cons_of_mem _ hx))
      · rename_i rows hd
        cases hrows : rows.isEmpty
        · have hfr : regionFrame data r = some (rows.map (tagRegion r)) := by
            simp [regionFrame, hd, hrows]
          simp only [List.filterMap_cons, hfr, Bool.false_eq_true, if_false]
          have h3 := ih (acc ++ [rows.map (tagRegion r)])
            (fun x hx => herr x (List.mem_cons_of_mem _ hx))
          rw [h3, List.append_assoc]
          rfl
        · have hfr : regionFrame data r = none := by
            simp [regionFrame, hd, hrows]
          simp only [List.filterMap_cons, hfr, if_pos rfl]
          exact ih acc (fun x hx => herr x (List.mem_cons_of_mem _ hx))

/-- Whatever the loop returns as `ok`, it is the accumulator extended with
exactly the tagged non-empty frames in region order. -/
theorem regionLoop_ok_shape (data : Region → RegionOutcome) :
    ∀ (regions : List Region) (acc dfs : List (List TaggedRow)),
      regionLoop data acc regions = Except.ok dfs →
      dfs = acc ++ regions.filterMap (regionFrame data) := by
  intro regions
  induction regions with
  | nil =>
      intro acc dfs h
      rw [regionLoop] at h
      injection h with h2
      rw [← h2, List.filterMap_nil, List.append_nil]
  | cons r rest ih =>
      intro acc dfs h
      simp only [regionLoop] at h
      split at h
      · exact absurd h (by simp)
      · rename_i hd
        have hfr : regionFrame data r = none := by simp [regionFrame, hd]
        simp only [List.filterMap_cons, hfr]
        exact ih acc dfs h
      · rename_i hd
        have hfr : regionFrame data r = none := by simp [regionFrame, hd]
        simp only [List.filterMap_cons, hfr]
        exact ih acc dfs h
      · rename_i rows hd
        split at h
        · rename_i hrows
          have hfr : regionFrame data r = none := by
            simp [regionFrame, hd, hrows]
          simp only [List.filterMap_cons, hfr]
          exact ih acc dfs h
        · rename_i hrows
          have hrows2 : rows.isEmpty = false := by
            cases hx : rows.isEmpty
            · rfl
            · exact absurd hx hrows
          have hfr : regionFrame data r = some (rows.map (tagRegion r)) := by
            simp [regionFrame, hd, hrows2]
          simp only [List.filterMap_cons, hfr]
          have h3 := ih (acc ++ [rows.map (tagRegion r)]) dfs h
          rw [h3, List.append_assoc]
          rfl

/-- An exception at any selected region escapes the loop. -/
theorem regionLoop_error_of_err (data : Region → RegionOutcome) :
    ∀ (regions : List Region) (acc : List (List TaggedRow)) (reg : Region),
      reg ∈ regions → data reg = RegionOutcome.err →
      regionLoop data acc regions = Except.error () := by
  intro regions
  induction regions with
  | nil => intro acc reg h _; simp at h
  | cons r rest ih =>
      intro acc reg hmem hderr
      simp only [regionLoop]
      split
      · rfl
      · rename_i hd
        rcases List.mem_cons.mp hmem with heq | hmemr
        · rw [heq] at hderr
          exact absurd (hderr.symm.trans hd) (by simp)
        · exact ih acc reg hmemr hderr
      · rename_i hd
        rcases List.mem_cons.mp hmem with heq | hmemr
        · rw [heq] at hderr
          exact absurd (hderr.symm.trans hd) (by simp)
        · exact ih acc reg hmemr hderr
      · rename_i rows hd
        rcases List.mem_cons.mp hmem with heq | hmemr
        · rw [heq] at hderr
          exact absurd (hderr.symm.trans hd) (by simp)
        · cases hrows : rows.isEmpty
          · simp only [hrows, Bool.false_eq_true, if_false]
            exact ih (acc ++ [rows.map (tagRegion r)]) reg hmemr hderr
          · simp only [hrows, if_pos rfl]
            exact ih acc reg hmemr hderr

/-- C8 counterexample: region us-east-1 yields a non-empty frame, but
processing us-west-2 raises inside the `try` (a subprocess
`TimeoutExpired` or a temp-file read error); the outer `except` fails the
whole run (`False`) although not every region yielded no data — refuting
"region aggregation fails if and only if every region yields no data". -/
theorem C8_counterexample :
    (consolidate_region_data
        (fun reg =>
          match reg with
          | Region.usEast1 =>
              RegionOutcome.frame [Row.mk "u1" "2025-10-20" "2025-10-20" []]
          | _ => RegionOutcome.err)
        true [Region.usEast1, Region.usWest2]).1 = false
    ∧ regionHasData
        (fun reg =>
          match reg with
          | Region.usEast1 =>
              RegionOutcome.frame [Row.mk "u1" "2025-10-20" "2025-10-20" []]
          | _ => RegionOutcome.err)
        Region.usEast1 = true :=
  ⟨by decide, by decide⟩

/-- C8 (amended): with a non-empty region list, *when no region's
processing raises and the artifact write succeeds*, the aggregation fails
exactly when every region yields no data — a data-less region is merely
skipped; an exception while processing any selected region, or a failing
artifact write, fails the whole run regardless of the other regions'
data; and every record of a successful run comes from some selected
region's frame, tagged with that region's code and its human-readable
label. -/
theorem C8_region_aggregation (data : Region → RegionOutcome)
    (writeOk : Bool) (regions : List Region) (_hne : regions ≠ []) :
    ((∀ reg, reg ∈ regions → data reg ≠ RegionOutcome.err) → writeOk = true →
      (((consolidate_region_data data writeOk regions).1 = false) ↔
        ∀ reg, reg ∈ regions → regionHasData data reg = false))
    ∧ (∀ reg, reg ∈ regions → data reg = RegionOutcome.err →
        (consolidate_region_data data writeOk regions).1 = false)
    ∧ (writeOk = false →
        (consolidate_region_data data writeOk regions).1 = false)
    ∧ (∀ t, t ∈ (consolidate_region_data data writeOk regions).2 →
        ∃ reg rows, reg ∈ regions ∧ data reg = RegionOutcome.frame rows
          ∧ t.row ∈ rows ∧ t.regionCol = regionCode reg
          ∧ t.regionNameCol = regionLabel reg) := by
  refine ⟨?_, ?_, ?_, ?_⟩
  · intro herr hw
    have hloop : regionLoop data [] regions
        = Except.ok (regions.filterMap (regionFrame data)) :=
      (regionLoop_ok_of_no_err data regions [] herr).trans
        (by rw [List.nil_append])
    cases hE : (regions.filterMap (regionFrame data)).isEmpty
    · have hval : consolidate_region_data data writeOk regions
          = (true, (regions.filterMap (regionFrame data)).flatten) := by
        unfold consolidate_region_data
        rw [hloop, hw]
        simp [hE]
      rw [hval]
      constructor
      · intro hfalse; exact absurd hfalse (by simp)
      · intro hall
        exfalso
        have hnil : regions.filterMap (regionFrame data) = [] := by
          rw [List.filterMap_eq_nil_iff]
          intro reg hreg
          exact (regionFrame_none_iff data reg).mpr (hall reg hreg)
        rw [hnil] at hE
        simp at hE
    · have hval : consolidate_region_data data writeOk regions = (false, []) := by
        unfold consolidate_region_data
        rw [hloop]
        simp [hE]
      have hnilfm : regions.filterMap (regionFrame data) = [] :=
        List.isEmpty_iff.mp hE
      rw [hval]
      constructor
      · intro _ reg hreg
        rw [← regionFrame_none_iff]
        exact List.filterMap_eq_nil_iff.mp hnilfm reg hreg
      · intro _; rfl
  · intro reg hmem hderr
    unfold consolidate_region_data
    rw [regionLoop_error_of_err data regions [] reg hmem hderr]
  · intro hw
    unfold consolidate_region_data
    cases hloop : regionLoop data [] regions with
    | error e => rfl
    | ok dfs =>
        rw [hw]
        cases hE : dfs.isEmpty <;> simp [hE]
  · intro t ht
    unfold consolidate_region_data at ht
    cases hloop : regionLoop data [] regions with
    | error e => simp only [hloop] at ht; simp at ht
    | ok dfs =>
        simp only [hloop] at ht
        cases hE : dfs.isEmpty
        · simp only [hE, Bool.false_eq_true, if_false] at ht
          cases hwk : writeOk
          · simp only [hwk, Bool.false_eq_true, if_false] at ht
            simp at ht
          · simp only [hwk, if_pos rfl] at ht
            have hshape := regionLoop_ok_shape data regions [] dfs hloop
            rw [List.nil_append] at hshape
            rw [hshape] at ht
            obtain ⟨df, hdf, htdf⟩ := List.mem_flatten.mp ht
            obtain ⟨reg, hreg, hfr⟩ := List.mem_filterMap.mp hdf
            obtain ⟨rows, hd, _, hdf2⟩ := regionFrame_some data reg df hfr
            rw [hdf2] at htdf
            obtain ⟨r, hr, hrt⟩ := List.mem_map.mp htdf
            refine ⟨reg, rows, hreg, hd, ?_, ?_, ?_⟩
            · rw [← hrt]; exact hr
            · rw [← hrt]; rfl
            · rw [← hrt]; rfl
        · simp only [hE, if_pos rfl] at ht
          simp at ht

/-- C8 witness: region us-east-1 yields one row, us-west-2's subprocess
exits non-zero (warning, skipped), nothing raises, the write succeeds; the
run succeeds. -/
theorem C8_region_aggregation_witness :
    (consolidate_region_data
      (fun reg =>
        match reg with
        | Region.usEast1 =>
            RegionOutcome.frame [Row.mk "u1" "2025-10-20" "2025-10-20" []]
        | _ => RegionOutcome.procFail)
      true [Region.usEast1, Region.usWest2]).1 = true := by
  have h := (C8_region_aggregation
    (fun reg =>
      match reg with
      | Region.usEast1 =>
          RegionOutcome.frame [Row.mk "u1" "2025-10-20" "2025-10-20" []]
      | _ => RegionOutcome.procFail)
    true [Region.usEast1, Region.usWest2] (by decide)).1 (by decide) rfl
  cases hf : (consolidate_region_data
      (fun reg =>
        match reg with
        | Region.usEast1 =>
            RegionOutcome.frame [Row.mk "u1" "2025-10-20" "2025-10-20" []]
        | _ => RegionOutcome.procFail)
      true [Region.usEast1, Region.usWest2]).1
  · have h2 := h.mp hf Region.usEast1 (by decide)
    exact absurd h2 (by decide)
  · rfl

/-! ### Leftmost-match lemmas for the regex search -/

theorem tokenAt_nil : tokenAt [] = none := rfl

/-- The matcher `tokenAt` succeeds at the head of `'_' :: tok ++ '_' :: suf` when `tok`
is exactly twelve digits, and yields `tok`. -/
theorem tokenAt_decomp (tok suf : List Char) (h12 : tok.length = 12)
    (hdig : tok.all Char.isDigit = true) :
    tokenAt ('_' :: (tok ++ '_' :: suf)) = some tok := by
  have htake : (tok ++ '_' :: suf).take 12 = tok := by
    rw [← h12]; exact List.take_left tok _
  have hdrop : (tok ++ '_' :: suf).drop 12 = '_' :: suf := by
    rw [← h12]; exact List.drop_left tok _
  rw [tokenAt]
  rw [htake, hdrop]
  simp [h12, hdig]

/-- The scan returns the match at position `n` when no earlier position
matches. -/
theorem searchToken_eq_of_first (n : Nat) (cs : List Char) (t : List Char)
    (hnone : ∀ i, i < n → tokenAt (cs.drop i) = none)
    (hmatch : tokenAt (cs.drop n) = some t) :
    searchToken cs = some t := by
  induction n generalizing cs with
  | zero =>
      rw [List.drop_zero] at hmatch
      cases cs with
      | nil => rw [tokenAt_nil] at hmatch; exact absurd hmatch (by simp)
      | cons c rest => rw [searchToken, hmatch]
  | succ n ih =>
      cases cs with
      | nil =>
          rw [List.drop_nil, tokenAt_nil] at hmatch
          exact absurd hmatch (by simp)
      | cons c rest =>
          have h0 := hnone 0 (Nat.succ_pos n)
          rw [List.drop_zero] at h0
          rw [searchToken, h0]
          exact ih rest
            (fun i hi => by
              have := hnone (i + 1) (Nat.succ_lt_succ hi)
              rwa [List.drop_succ_cons] at this)
            (by rwa [List.drop_succ_cons] at hmatch)

/-- The scan fails when no position matches. -/
theorem searchToken_eq_none (cs : List Char)
    (hnone : ∀ i, tokenAt (cs.drop i) = none) : searchToken cs = none := by
  induction cs with
  | nil => rfl
  | cons c rest ih =>
      have h0 := hnone 0
      rw [List.drop_zero] at h0
      rw [searchToken, h0]
      exact ih fun i => by
        have := hnone (i + 1)
        rwa [List.drop_succ_cons] at this

/-- C4 counterexample: the filename
`a_999999999999_b_202501010000_c.csv` contains the underscore-delimited
12-digit numeric token `202501010000` whose first 8 digits form the valid
calendar date 2025-01-01, yet extraction fails (with a `ValueError`),
because the regex takes the leftmost token `999999999999`, whose 8-digit
prefix `99999999` is not a valid date. -/
theorem C4_counterexample :
    ("a_999999999999_b_202501010000_c.csv"
        = String.mk ("a_999999999999_b".toList
            ++ '_' :: ("202501010000".toList ++ '_' :: "c.csv".toList))
      ∧ "202501010000".toList.length = 12
      ∧ "202501010000".toList.all Char.isDigit = true
      ∧ parseYYYYMMDD "20250101" = Except.ok ⟨2025, 1, 1⟩)
    ∧ extract_date_from_filename "a_999999999999_b_202501010000_c.csv"
        = Except.error "ValueError" := by
  exact ⟨⟨by decide, by decide, by decide, by decide⟩, by decide⟩

/-- C4 (amended): extraction is decided by the leftmost
underscore-delimited 12-digit numeric token — it returns the date given by
that token's first 8 digits exactly when they form a valid `YYYYMMDD`
calendar date, and fails otherwise, even if a later token would parse; with
no such token anywhere, extraction fails. -/
theorem C4_first_token_decides :
    (∀ (pre tok suf : List Char), tok.length = 12 →
        tok.all Char.isDigit = true →
        (∀ i, i < pre.length →
          tokenAt ((pre ++ '_' :: (tok ++ '_' :: suf)).drop i) = none) →
        extract_date_from_filename
            (String.mk (pre ++ '_' :: (tok ++ '_' :: suf)))
          = parseYYYYMMDD (String.mk (tok.take 8)))
    ∧ (∀ cs : List Char, (∀ i, tokenAt (cs.drop i) = none) →
        extract_date_from_filename (String.mk cs) = Except.error "ValueError") := by
  constructor
  · intro pre tok suf h12 hdig hfirst
    have hdrop : (pre ++ '_' :: (tok ++ '_' :: suf)).drop pre.length
        = '_' :: (tok ++ '_' :: suf) := List.drop_left pre _
    have hsearch : searchToken (pre ++ '_' :: (tok ++ '_' :: suf)) = some tok :=
      searchToken_eq_of_first pre.length _ tok hfirst
        (by rw [hdrop]; exact tokenAt_decomp tok suf h12 hdig)
    rw [extract_date_from_filename]
    have htl : (String.mk (pre ++ '_' :: (tok ++ '_' :: suf))).toList
        = pre ++ '_' :: (tok ++ '_' :: suf) := rfl
    rw [htl, hsearch]
  · intro cs hnone
    rw [extract_date_from_filename]
    have htl : (String.mk cs).toList = cs := rfl
    rw [htl, searchToken_eq_none cs hnone]

/-- C4 witness: the leftmost (only) token of
`acct_202510200000_report.csv` decides the extraction, giving 2025-10-20. -/
theorem C4_first_token_decides_witness :
    extract_date_from_filename
        (String.mk ("acct".toList
          ++ '_' :: ("202510200000".toList ++ '_' :: "report.csv".toList)))
      = Except.ok ⟨2025, 10, 20⟩ :=
  (C4_first_token_decides.1 "acct".toList "202510200000".toList
    "report.csv".toList (by decide) (by decide) (by decide)).trans (by decide)

/-- C7 witness: a concrete successful fetch of a file dated 2025-10-20. -/
theorem C7_ingestor_error_isolation_witness :
    download_and_parse_csv
      (fun k => if k == "p/a_202510200000_r.csv"
        then Except.ok [CsvRow.mk "u1" "2025-10-20" []] else Except.error ())
      "p/a_202510200000_r.csv"
      = [Row.mk "u1" "2025-10-20" "2025-10-20" []] :=
  ((C7_ingestor_error_isolation
      (fun k => if k == "p/a_202510200000_r.csv"
        then Except.ok [CsvRow.mk "u1" "2025-10-20" []] else Except.error ())
      "p/a_202510200000_r.csv").2.2
    [CsvRow.mk "u1" "2025-10-20" []] ⟨2025, 10, 20⟩ (by decide) (by decide)).1.trans
    (by decide)

/-! ## Identity cache lemmas and claims -/

theorem alookup_ainsert_self {α : Type} (l : List (String × α)) (k : String)
    (v : α) : alookup (ainsert l k v) k = some v := by
  induction l with
  | nil => simp [ainsert, alookup]
  | cons p rest ih =>
      obtain ⟨k1, w⟩ := p
      rw [ainsert]
      cases h : k1 == k
      · simp only [Bool.false_eq_true, if_false, alookup, h]
        exact ih
      · simp [alookup, h]

theorem alookup_ainsert_isSome {α : Type} (l : List (String × α)) (k : String)
    (v : α) (k2 : String) (h : (alookup l k2).isSome = true) :
    (alookup (ainsert l k v) k2).isSome = true := by
  induction l with
  | nil => simp [alookup] at h
  | cons p rest ih =>
      obtain ⟨k1, w⟩ := p
      rw [ainsert]
      cases hk : k1 == k
      · simp only [Bool.false_eq_true, if_false]
        simp only [alookup] at h ⊢
        cases hk2 : k1 == k2
        · simp only [hk2, Bool.false_eq_true, if_false] at h ⊢
          exact ih h
        · simp [hk2]
      · simp only [if_pos rfl]
        simp only [alookup] at h ⊢
        cases hk2 : k1 == k2
        · simp only [hk2, Bool.false_eq_true, if_false] at h ⊢
          exact h
        · simp [hk2]

theorem alookup_mem {α : Type} {l : List (String × α)} {k : String} {v : α}
    (h : alookup l k = some v) : (k, v) ∈ l := by
  induction l with
  | nil => simp [alookup] at h
  | cons p rest ih =>
      obtain ⟨k1, w⟩ := p
      simp only [alookup] at h
      cases hk : k1 == k
      · simp only [hk, Bool.false_eq_true, if_false] at h
        exact List.mem_cons_of_mem _ (ih h)
      · simp only [hk] at h
        simp at h
        have hkk : k1 = k := beq_iff_eq.mp hk
        rw [← h, ← hkk]
        exact List.mem_cons_self _ _

/-- When the directory is unconfigured or errors, the query returns the
fallback dict and leaves the cache untouched; a `describe_user` call is
issued exactly when the directory is configured. -/
theorem directory_query_fail (clientsOk : Bool) (storeId : Option String)
    (dir : DirResult) (now : Int) (cache : Cache) (uid : String)
    (hfail : (clientsOk && truthyOpt storeId) = false ∨ dir = DirResult.err) :
    directory_query clientsOk storeId dir now cache uid
      = (fallbackInfo uid now, cache,
          if clientsOk && truthyOpt storeId then 1 else 0) := by
  unfold directory_query
  cases hc : clientsOk && truthyOpt storeId
  · rfl
  · rcases hfail with hf | hf
    · rw [hc] at hf; exact absurd hf (by simp)
    · rw [hf]; rfl

/-- A successful directory query caches and returns the new record. -/
theorem directory_query_ok (clientsOk : Bool) (storeId : Option String)
    (resp : DescribeResp) (now : Int) (cache : Cache) (uid : String)
    (hc : (clientsOk && truthyOpt storeId) = true) :
    directory_query clientsOk storeId (DirResult.ok resp) now cache uid
      = (mkUserInfo uid resp now, ainsert cache uid (mkUserInfo uid resp now), 1) := by
  unfold directory_query
  rw [hc, if_pos rfl]

theorem directory_query_cache_sub (clientsOk : Bool) (storeId : Option String)
    (dir : DirResult) (now : Int) (cache : Cache) (uid : String) (k : String)
    (hk : (alookup cache k).isSome = true) :
    (alookup (directory_query clientsOk storeId dir now cache uid).2.1 k).isSome
      = true := by
  unfold directory_query
  cases hc : clientsOk && truthyOpt storeId
  · exact hk
  · cases dir with
    | ok resp => exact alookup_ainsert_isSome cache uid (mkUserInfo uid resp now) k hk
    | err => exact hk

/-- The cache after a non-raising `get_user_info` call is either untouched
or the result of one insertion of the freshly resolved record. -/
theorem get_user_info_ok_cases (clientsOk : Bool) (storeId : Option String)
    (dir : DirResult) (now : Int) (cache : Cache) (uid : String)
    (r : UserDict) (c2 : Cache) (n : Nat)
    (h : get_user_info clientsOk storeId dir now cache uid = Except.ok (r, c2, n)) :
    (r, c2, n) = directory_query clientsOk storeId dir now cache uid
    ∨ c2 = cache := by
  unfold get_user_info at h
  split at h
  · split at h
    · exact absurd h (by simp)
    · split at h
      · injection h with h2
        exact Or.inr (congrArg (fun t => t.2.1) h2).symm
      · injection h with h2
        exact Or.inl h2.symm
  · injection h with h2
    exact Or.inl h2.symm

theorem get_user_info_cache_mono (clientsOk : Bool) (storeId : Option String)
    (dir : DirResult) (now : Int) (cache : Cache) (uid : String)
    (r : UserDict) (c2 : Cache) (n : Nat)
    (h : get_user_info clientsOk storeId dir now cache uid = Except.ok (r, c2, n))
    (k : String) (hk : (alookup cache k).isSome = true) :
    (alookup c2 k).isSome = true := by
  rcases get_user_info_ok_cases clientsOk storeId dir now cache uid r c2 n h with
    hdq | hcc
  · have hc2 : c2 = (directory_query clientsOk storeId dir now cache uid).2.1 :=
      congrArg (fun t => t.2.1) hdq
    rw [hc2]
    exact directory_query_cache_sub clientsOk storeId dir now cache uid k hk
  · rw [hcc]; exact hk

/-- C5: when there is no fresh cached entry and the directory is
unconfigured, unavailable, or the lookup fails, `get_user_info` returns the
fallback record — username and display name derived from the first 8
characters of the user id, `source = "fallback"` — and the cache is left
exactly as it was (in particular a previously uncached id stays uncached). -/
theorem C5_fallback_not_persisted (clientsOk : Bool) (storeId : Option String)
    (dir : DirResult) (now : Int) (cache : Cache) (uid : String)
    (hstale : alookup cache uid = none
      ∨ ∃ cached ca, alookup cache uid = some cached
          ∧ cachedAtOf cached = Except.ok ca ∧ ¬(now - ca < 86400))
    (hfail : (clientsOk && truthyOpt storeId) = false ∨ dir = DirResult.err) :
    get_user_info clientsOk storeId dir now cache uid
        = Except.ok (fallbackInfo uid now, cache,
            if clientsOk && truthyOpt storeId then 1 else 0)
    ∧ alookup (fallbackInfo uid now) "source" = some (Val.str "fallback")
    ∧ alookup (fallbackInfo uid now) "username"
        = some (Val.str ("User-" ++ String.mk (uid.toList.take 8)))
    ∧ alookup (fallbackInfo uid now) "display_name"
        = some (Val.str ("User-" ++ String.mk (uid.toList.take 8))) := by
  refine ⟨?_, rfl, rfl, rfl⟩
  unfold get_user_info
  rcases hstale with hl | ⟨cached, ca, hl, hca, ht⟩
  · simp only [hl]
    rw [directory_query_fail clientsOk storeId dir now cache uid hfail]
  · simp only [hl, hca, if_neg ht]
    rw [directory_query_fail clientsOk storeId dir now cache uid hfail]

/-- C5 witness: an unconfigured directory and an uncached id. -/
theorem C5_fallback_not_persisted_witness :
    get_user_info false none DirResult.err 0 [] "user12345678"
      = Except.ok (fallbackInfo "user12345678" 0, [], 0) :=
  ((C5_fallback_not_persisted false none DirResult.err 0 [] "user12345678"
    (Or.inl rfl) (Or.inl rfl)).1).trans (by decide)

theorem cachedAtOf_mkUserInfo (uid : String) (resp : DescribeResp) (t : Int) :
    cachedAtOf (mkUserInfo uid resp t) = Except.ok t := rfl

/-- C6 counterexample: an uncached user id, a configured directory that
errors on lookup, and two `get_user_info` calls one second apart (well
inside the 24h TTL window).  Each call issues one `describe_user` call
(third component `1`) and neither caches anything, so the pair of calls
issues two directory calls, not exactly one as the claim states. -/
theorem C6_counterexample :
    get_user_info true (some "sid") DirResult.err 1000 [] "u1"
        = Except.ok (fallbackInfo "u1" 1000, [], 1)
    ∧ get_user_info true (some "sid") DirResult.err 1001 [] "u1"
        = Except.ok (fallbackInfo "u1" 1001, [], 1)
    ∧ ((1001 : Int) - 1000 < 86400) :=
  ⟨by decide, by decide, by decide⟩

/-- C6 (amended): a cached entry younger than 24h (`now - cached_at <
86400`) is returned unchanged with no directory call; two calls within the
TTL window issue exactly one directory call *provided the directory is
configured and the first call resolves successfully* (first call: one
`describe_user`, record cached; second call: zero); and once the TTL has
expired, a call with a configured directory issues a new directory call. -/
theorem C6_ttl_freshness :
    (∀ (clientsOk : Bool) (storeId : Option String) (dir : DirResult)
        (now : Int) (cache : Cache) (uid : String) (cached : UserDict)
        (ca : Int),
        alookup cache uid = some cached → cachedAtOf cached = Except.ok ca →
        now - ca < 86400 →
        get_user_info clientsOk storeId dir now cache uid
          = Except.ok (cached, cache, 0))
    ∧ (∀ (storeId : Option String) (resp : DescribeResp) (dir2 : DirResult)
        (t1 t2 : Int) (cache : Cache) (uid : String),
        truthyOpt storeId = true → alookup cache uid = none →
        t2 - t1 < 86400 →
        get_user_info true storeId (DirResult.ok resp) t1 cache uid
            = Except.ok (mkUserInfo uid resp t1,
                ainsert cache uid (mkUserInfo uid resp t1), 1)
          ∧ get_user_info true storeId dir2 t2
              (ainsert cache uid (mkUserInfo uid resp t1)) uid
            = Except.ok (mkUserInfo uid resp t1,
                ainsert cache uid (mkUserInfo uid resp t1), 0))
    ∧ (∀ (storeId : Option String) (dir : DirResult) (now : Int)
        (cache : Cache) (uid : String) (cached : UserDict) (ca : Int),
        truthyOpt storeId = true → alookup cache uid = some cached →
        cachedAtOf cached = Except.ok ca → ¬(now - ca < 86400) →
        (get_user_info true storeId dir now cache uid).toOption.map
            (fun t => t.2.2) = some 1) := by
  refine ⟨?_, ?_, ?_⟩
  · intro clientsOk storeId dir now cache uid cached ca hl hca ht
    unfold get_user_info
    simp only [hl, hca, if_pos ht]
  · intro storeId resp dir2 t1 t2 cache uid htr hl ht2
    have hc : (true && truthyOpt storeId) = true := by simp [htr]
    constructor
    · unfold get_user_info
      simp only [hl]
      rw [directory_query_ok true storeId resp t1 cache uid hc]
    · unfold get_user_info
      simp only [alookup_ainsert_self cache uid (mkUserInfo uid resp t1),
        cachedAtOf_mkUserInfo uid resp t1, if_pos ht2]
  · intro storeId dir now cache uid cached ca htr hl hca ht
    have hc2 : (true && truthyOpt storeId) = true := by simp [htr]
    unfold get_user_info
    simp only [hl, hca, if_neg ht]
    unfold directory_query
    rw [hc2, if_pos rfl]
    cases dir with
    | ok resp => simp [Except.toOption]
    | err => simp [Except.toOption]

/-- C6 witness: a cached entry resolved at time 100 read back at time 200
is returned unchanged with no directory call. -/
theorem C6_ttl_freshness_witness :
    get_user_info false none DirResult.err 200
        [("u1", mkUserInfo "u1" (DescribeResp.mk none none none none []) 100)]
        "u1"
      = Except.ok
          (mkUserInfo "u1" (DescribeResp.mk none none none none []) 100,
            [("u1", mkUserInfo "u1" (DescribeResp.mk none none none none []) 100)],
            0) :=
  C6_ttl_freshness.1 false none DirResult.err 200
    [("u1", mkUserInfo "u1" (DescribeResp.mk none none none none []) 100)] "u1"
    (mkUserInfo "u1" (DescribeResp.mk none none none none []) 100) 100
    (by decide) (by decide) (by decide)

theorem bulk_get_go_mono (clientsOk : Bool) (storeId : Option String)
    (dirOf : String → DirResult) (now : Int) :
    ∀ (uids : List String) (acc : List (String × UserDict)) (cache : Cache)
      (res : List (String × UserDict)) (c2 : Cache),
      bulk_get_go clientsOk storeId dirOf now acc cache uids
        = Except.ok (res, c2) →
      ∀ k, (alookup cache k).isSome = true → (alookup c2 k).isSome = true := by
  intro uids
  induction uids with
  | nil =>
      intro acc cache res c2 h k hk
      rw [bulk_get_go] at h
      injection h with h2
      have h3 : cache = c2 := congrArg (fun t => t.2) h2
      rw [← h3]
      exact hk
  | cons uid rest ih =>
      intro acc cache res c2 h k hk
      rw [bulk_get_go] at h
      cases hg : get_user_info clientsOk storeId (dirOf uid) now cache uid with
      | error e => rw [hg] at h; exact absurd h (by simp)
      | ok t =>
          obtain ⟨info, c1, m⟩ := t
          rw [hg] at h
          have h2 : bulk_get_go clientsOk storeId dirOf now
              (ainsert acc uid info) c1 rest = Except.ok (res, c2) := h
          exact ih (ainsert acc uid info) c1 res c2 h2 k
            (get_user_info_cache_mono clientsOk storeId (dirOf uid) now cache uid
              info c1 m hg k hk)

theorem list_users_foldl_mono (now : Int) :
    ∀ (us : List RawUser) (acc : List UserDict × Cache) (k : String),
      (alookup acc.2 k).isSome = true →
      (alookup
        (us.foldl
          (fun acc u =>
            let info := rawUserInfo u now
            (acc.1 ++ [info], ainsert acc.2 u.userId info))
          acc).2 k).isSome = true := by
  intro us
  induction us with
  | nil => intro acc k hk; exact hk
  | cons u t ih =>
      intro acc k hk
      rw [List.foldl_cons]
      exact ih _ k (alookup_ainsert_isSome acc.2 u.userId (rawUserInfo u now) k hk)

/-- C9: the identity cache grows monotonically — after any of the mapper's
operations (`get_user_info`, `bulk_get_users`, `search_user_by_username`,
`list_all_users`) every user id cached before the call is still cached. -/
theorem C9_cache_monotone :
    (∀ (clientsOk : Bool) (storeId : Option String) (dir : DirResult)
        (now : Int) (cache : Cache) (uid : String) (r : UserDict) (c2 : Cache)
        (n : Nat),
        get_user_info clientsOk storeId dir now cache uid = Except.ok (r, c2, n) →
        ∀ k, (alookup cache k).isSome = true → (alookup c2 k).isSome = true)
    ∧ (∀ (clientsOk : Bool) (storeId : Option String)
        (dirOf : String → DirResult) (now : Int) (cache : Cache)
        (uids : List String) (res : List (String × UserDict)) (c2 : Cache),
        bulk_get_users clientsOk storeId dirOf now cache uids
          = Except.ok (res, c2) →
        ∀ k, (alookup cache k).isSome = true → (alookup c2 k).isSome = true)
    ∧ (∀ (clientsOk : Bool) (storeId : Option String)
        (searchRes : Except Unit (List RawUser)) (dir : DirResult) (now : Int)
        (cache : Cache) (k : String),
        (alookup cache k).isSome = true →
        (alookup
          (search_user_by_username clientsOk storeId searchRes dir now cache).2
          k).isSome = true)
    ∧ (∀ (clientsOk : Bool) (storeId : Option String)
        (usersRes : Except Unit (List RawUser)) (now : Int) (cache : Cache)
        (k : String),
        (alookup cache k).isSome = true →
        (alookup (list_all_users clientsOk storeId usersRes now cache).2
          k).isSome = true) := by
  refine ⟨?_, ?_, ?_, ?_⟩
  · intro clientsOk storeId dir now cache uid r c2 n h k hk
    exact get_user_info_cache_mono clientsOk storeId dir now cache uid r c2 n h k hk
  · intro clientsOk storeId dirOf now cache uids res c2 h k hk
    exact bulk_get_go_mono clientsOk storeId dirOf now uids [] cache res c2 h k hk
  · intro clientsOk storeId searchRes dir now cache k hk
    unfold search_user_by_username
    cases hg : !(clientsOk && truthyOpt storeId)
    · simp only [Bool.false_eq_true, if_false]
      cases searchRes with
      | error _ => exact hk
      | ok users =>
          cases users with
          | nil => exact hk
          | cons u rest =>
              cases hgu : get_user_info clientsOk storeId dir now cache u.userId with
              | error e =>
                  simp only [hgu]
                  exact hk
              | ok t =>
                  obtain ⟨info, c1, m⟩ := t
                  simp only [hgu]
                  exact get_user_info_cache_mono clientsOk storeId dir now cache
                    u.userId info c1 m hgu k hk
    · simp only [if_pos rfl]
      exact hk
  · intro clientsOk storeId usersRes now cache k hk
    unfold list_all_users
    cases hg : !(clientsOk && truthyOpt storeId)
    · simp only [Bool.false_eq_true, if_false]
      cases usersRes with
      | error _ => exact hk
      | ok us => exact list_users_foldl_mono now us ([], cache) k hk
    · simp only [if_pos rfl]
      exact hk

/-- C9 witness: a `get_user_info` call for an uncached id `u2` with an
unconfigured directory preserves the cache entry for `u1`. -/
theorem C9_cache_monotone_witness :
    (alookup [("u1", fallbackInfo "u1" 0)] "u1").isSome = true :=
  C9_cache_monotone.1 false none DirResult.err 0 [("u1", fallbackInfo "u1" 0)]
    "u2" (fallbackInfo "u2" 0) [("u1", fallbackInfo "u1" 0)] 0 (by decide)
    "u1" (by decide)

theorem hasAllFields_mkUserInfo (uid : String) (resp : DescribeResp)
    (now : Int) : hasAllFields (mkUserInfo uid resp now) = true := rfl

theorem hasAllFields_fallbackInfo (uid : String) (now : Int) :
    hasAllFields (fallbackInfo uid now) = true := rfl

theorem wellFormedInfo_parts {d : UserDict} (h : wellFormedInfo d = true) :
    hasAllFields d = true
    ∧ (∃ nn : Int, alookup d "cached_at" = some (Val.num nn))
    ∧ (alookup d "source" = some (Val.str "iam_identity_center")
        ∨ alookup d "source" = some (Val.str "fallback")) := by
  unfold wellFormedInfo at h
  rw [Bool.and_eq_true, Bool.and_eq_true] at h
  obtain ⟨⟨h1, h2⟩, h3⟩ := h
  refine ⟨h1, ?_, ?_⟩
  · cases hca : alookup d "cached_at" with
    | none => rw [hca] at h2; simp at h2
    | some v =>
        cases v with
        | str msg => rw [hca] at h2; simp at h2
        | num nn => exact ⟨nn, rfl⟩
  · rw [Bool.or_eq_true, beq_iff_eq, beq_iff_eq] at h3
    exact h3

/-- Whatever the directory outcome, the record `directory_query` returns
has all eight fields and a `source` of `"iam_identity_center"` or
`"fallback"`. -/
theorem directory_query_fst_wf (clientsOk : Bool) (storeId : Option String)
    (dir : DirResult) (now : Int) (cache : Cache) (uid : String) :
    hasAllFields (directory_query clientsOk storeId dir now cache uid).1 = true
    ∧ (alookup (directory_query clientsOk storeId dir now cache uid).1 "source"
          = some (Val.str "iam_identity_center")
        ∨ alookup (directory_query clientsOk storeId dir now cache uid).1 "source"
          = some (Val.str "fallback")) := by
  unfold directory_query
  cases hc : clientsOk && truthyOpt storeId
  · exact ⟨hasAllFields_fallbackInfo uid now, Or.inr rfl⟩
  · cases dir with
    | ok resp => exact ⟨hasAllFields_mkUserInfo uid resp now, Or.inl rfl⟩
    | err => exact ⟨hasAllFields_fallbackInfo uid now, Or.inr rfl⟩

/-- C10: provided every entry of the loaded cache is a well-formed record,
`get_user_info` never raises — it returns a record for every directory
outcome — and the returned record carries all eight fields with a `source`
of `"iam_identity_center"` or `"fallback"`. -/
theorem C10_get_user_info_total (clientsOk : Bool) (storeId : Option String)
    (dir : DirResult) (now : Int) (cache : Cache) (uid : String)
    (hwf : ∀ p, p ∈ cache → wellFormedInfo p.2 = true) :
    ((get_user_info clientsOk storeId dir now cache uid).toOption.isSome = true)
    ∧ (∀ r c2 n,
        get_user_info clientsOk storeId dir now cache uid = Except.ok (r, c2, n) →
        hasAllFields r = true
        ∧ (alookup r "source" = some (Val.str "iam_identity_center")
            ∨ alookup r "source" = some (Val.str "fallback"))) := by
  cases hl : alookup cache uid with
  | none =>
      constructor
      · unfold get_user_info
        simp only [hl]
        simp [Except.toOption]
      · intro r c2 n h
        unfold get_user_info at h
        simp only [hl] at h
        injection h with h2
        have hr : (directory_query clientsOk storeId dir now cache uid).1 = r :=
          congrArg (fun t => t.1) h2
        rw [← hr]
        exact directory_query_fst_wf clientsOk storeId dir now cache uid
  | some cached =>
      obtain ⟨haf, ⟨nn, hca⟩, hsrc⟩ :=
        wellFormedInfo_parts (hwf (uid, cached) (alookup_mem hl))
      have hcat : cachedAtOf cached = Except.ok nn := by
        unfold cachedAtOf
        rw [hca]
        rfl
      by_cases ht : now - nn < 86400
      · constructor
        · unfold get_user_info
          simp only [hl, hcat, if_pos ht]
          simp [Except.toOption]
        · intro r c2 n h
          unfold get_user_info at h
          simp only [hl, hcat, if_pos ht] at h
          injection h with h2
          have hr : cached = r := congrArg (fun t => t.1) h2
          rw [← hr]
          exact ⟨haf, hsrc⟩
      · constructor
        · unfold get_user_info
          simp only [hl, hcat, if_neg ht]
          simp [Except.toOption]
        · intro r c2 n h
          unfold get_user_info at h
          simp only [hl, hcat, if_neg ht] at h
          injection h with h2
          have hr : (directory_query clientsOk storeId dir now cache uid).1 = r :=
            congrArg (fun t => t.1) h2
          rw [← hr]
          exact directory_query_fst_wf clientsOk storeId dir now cache uid

/-- C10 witness: an empty (trivially well-formed) cache, no directory. -/
theorem C10_get_user_info_total_witness :
    (get_user_info false none DirResult.err 0 [] "u1").toOption.isSome = true :=
  (C10_get_user_info_total false none DirResult.err 0 [] "u1"
    (by intro p hp; simp at hp)).1
